import Mathlib

/-!
Shallow embedding of `shared/ux.py` (Coldcard firmware UX core): the
interaction stack, the story-viewer scrolling state machine, the idle-logout
watchdog, the abort/interrupt signaling protocol, the key-up wait loop, and
the fatal-error display helper.  The non-qwerty (Mk4) device variant constants
are used: `CH_PER_W = 17`, `STORY_H = 5`.

Python conventions carried over explicitly:
* a Python list used as a stack keeps its top at the END of the Lean list
  (`append` = push, `[-1]` = `getLast?`, `list.pop()` = `dropLast`);
* Python truthiness of a string is non-emptiness, of an integer is being
  nonzero;
* `lines[-1]` on an empty list raises `IndexError`; functions that can hit it
  return `Option`, with `none` marking the raised fault;
* MicroPython `utime.ticks_diff` is the documented wraparound-safe signed
  difference over the 2^30 ticks period.
-/

/-- `STORY_H` for the non-qwerty (Mk4) variant: 5 text lines per screen. -/
def STORY_H : Int := 5

/-- `CH_PER_W` for the non-qwerty (Mk4) variant: 17 characters per line. -/
def CH_PER_W : Nat := 17

/-! ## InteractionStack (`class UserInteraction`) -/

/-- `UserInteraction.push`: `self.stack.append(new_ux)`.  Top of stack is the
end of the list, as in the Python list. -/
def UserInteraction.push (s : List α) (x : α) : List α := s ++ [x]

/-- `UserInteraction.reset`: `self.stack.clear()` followed by `self.push(new_ux)`
(the intervening `gc.collect()` has no observable stack effect). -/
def UserInteraction.reset (_s : List α) (x : α) : List α :=
  UserInteraction.push [] x

/-- `UserInteraction.top_of_stack`: `self.stack[-1] if self.stack else None`. -/
def UserInteraction.top_of_stack (s : List α) : Option α := s.getLast?

/-- `UserInteraction.pop`: when `len(self.stack) < 2` it does nothing and
returns `True`; otherwise it pops the top element (and the Python function
falls off the end, returning `None`).  The pair is (new stack, returned
value). -/
def UserInteraction.pop (s : List α) : List α × Option Bool :=
  if s.length < 2 then (s, some true) else (s.dropLast, none)

/-- `UserInteraction.replace`: pop the current top, then append the new one. -/
def UserInteraction.replace (s : List α) (x : α) : List α :=
  s.dropLast ++ [x]

/-- Outcome of one call to a screen's `interact()` coroutine: it either
completes normally, raises `AbortInteraction`, or raises some other
exception. -/
inductive InteractOutcome
  | normal
  | aborted
  | failed
deriving DecidableEq, Repr

/-- A screen, as the interaction stack sees it: only its `interact()`
capability matters, modelled by the outcome that invocation produces. -/
structure Screen where
  interact : InteractOutcome
deriving DecidableEq, Repr

/-- Outcome of `UserInteraction.interact` (the driver-loop `run()` step):
return normally to the driver loop, propagate an uncaught exception, or fault
on `self.stack[-1]` with an empty stack. -/
inductive RunOutcome
  | returned
  | propagated
  | indexFault
deriving DecidableEq, Repr

/-- `UserInteraction.interact`: `await self.stack[-1].interact()` inside
`try ... except AbortInteraction: pass`.  Only `AbortInteraction` is caught;
other exceptions propagate; `stack[-1]` on an empty stack raises
`IndexError`. -/
def UserInteraction.interact (s : List Screen) : RunOutcome :=
  match s.getLast? with
  | none => .indexFault
  | some scr =>
    match scr.interact with
    | .normal => .returned
    | .aborted => .returned
    | .failed => .propagated

/-! ## Story viewer navigation (`ux_show_story`, lines 190-201)

The key-handling branches that move `top`.  Each constructor is one `elif`
branch of the source; `l` is `len(lines)` and `top` is the viewport index.
All arithmetic is over `Int`, as Python integers. -/

/-- The six navigation actions of `ux_show_story`: End, Home/`'0'`,
Page-up/`'7'`, Page-down/`'9'`, Up/`'5'`, Down/`'8'`. -/
inductive NavKey
  | endK
  | homeK
  | pageUp
  | pageDown
  | upK
  | downK
deriving DecidableEq, Repr

/-- `ux_show_story` navigation transition on `top`:
* End: `top = max(0, len(lines)-(STORY_H//2))`
* Home/'0': `top = 0`
* Page-up/'7': `top = max(0, top-STORY_H)`
* Page-down/'9': `top = min(len(lines)-2, top+STORY_H)`
* Up/'5': `top = max(0, top-1)`
* Down/'8': `top = min(len(lines)-2, top+1)` -/
def ux_show_story_nav (l : Int) : NavKey → Int → Int
  | .endK, _ => max 0 (l - STORY_H / 2)
  | .homeK, _ => 0
  | .pageUp, top => max 0 (top - STORY_H)
  | .pageDown, top => min (l - 2) (top + STORY_H)
  | .upK, top => max 0 (top - 1)
  | .downK, top => min (l - 2) (top + 1)

/-- Iterated Page-down from the initial `top = 0`, as produced by pressing
'9' repeatedly in `ux_show_story`. -/
def pageDownIter (l : Int) : Nat → Int
  | 0 => 0
  | n + 1 => ux_show_story_nav l .pageDown (pageDownIter l n)

/-! ## Story viewer line-buffer construction (`ux_show_story`, lines 128-167)

The plain-string branch of the construction (non-qwerty variant, so no
CANCEL/SELECT text substitution).  `word_wrap` lives in `utils.py`, outside
this module; it is passed in as the wrapping collaborator. -/

/-- Python `s.split(sep)` for a single-character separator, over the
character list of the string: splitting `""` yields `[[]]` (Python's
`['']`), a trailing separator yields a trailing empty piece, etc. -/
def pySplitChar (sep : Char) : List Char → List (List Char)
  | [] => [[]]
  | c :: cs =>
    match pySplitChar sep cs with
    | [] => [[]]
    | s :: rest => if c = sep then [] :: s :: rest else (c :: s) :: rest

/-- Python `msg.split(sep)` for a single-character separator. -/
def pySplit (sep : Char) (msg : String) : List String :=
  (pySplitChar sep msg.toList).map (fun cs => String.mk cs)

/-- One source line of the message becomes one or more buffer lines:
`word_wrap(ln, CH_PER_W)` when it is longer than the display width, else the
line itself (blank lines pass through). -/
def storyWrapLine (wrap : String → List String) (ln : String) : List String :=
  if ln.length > CH_PER_W then wrap ln else [ln]

/-- Lines of `ux_show_story` before trimming: the optional `'\x01' + title`
line, then each line of `msg.split('\n')` wrapped by `storyWrapLine`. -/
def storyRawLines (wrap : String → List String) (title : Option String)
    (msg : String) : List String :=
  (match title with
   | some t => ["\x01" ++ t]
   | none => []) ++
  ((pySplit '\n' msg).map (storyWrapLine wrap)).flatten

/-- The trim loop `while not lines[-1]: lines = lines[:-1]`, run on the
REVERSED line buffer (so `lines[-1]` is the head, `lines = lines[:-1]` is the
tail).  Evaluating `lines[-1]` on an empty list raises `IndexError`, modelled
as `none`. -/
def storyTrimLoopRev : List String → Option (List String)
  | [] => none
  | x :: xs => if x.isEmpty then storyTrimLoopRev xs else some (x :: xs)

/-- The trim loop of `ux_show_story` on the line buffer in source order. -/
def storyTrimBlanks (ls : List String) : Option (List String) :=
  (storyTrimLoopRev ls.reverse).map List.reverse

/-- The full line buffer of `ux_show_story`: raw lines, trim trailing blank
lines, then `lines.append('EOT')`.  `none` marks the `IndexError` fault of the
trim loop. -/
def ux_show_story_lines (wrap : String → List String) (title : Option String)
    (msg : String) : Option (List String) :=
  (storyTrimBlanks (storyRawLines wrap title msg)).map (fun ls => ls ++ ["EOT"])

/-! ## Idle watchdog (`idle_logout`) -/

/-- MicroPython `utime.ticks_diff(a, b)`: wraparound-safe signed difference
over the 2^30 ticks period, yielding a value in `[-2^29, 2^29)`. -/
def ticks_diff (a b : Nat) : Int :=
  ((a : Int) - (b : Int) + 2 ^ 29) % 2 ^ 30 - 2 ^ 29

/-- What one watchdog cycle observes of its collaborators:
`glob.hsm_active`, `glob.numpad.last_event_time` (0 is Python-falsy, meaning
no key event recorded yet), `utime.ticks_ms()`, and
`settings.get('idle_to', ...)` in seconds. -/
structure CycleEnv where
  hsm : Bool
  lastEvent : Nat
  now : Nat
  idleTo : Nat
deriving DecidableEq, Repr

/-- Control status of the `idle_logout` task. -/
inductive WatchStatus
  | running
  | stoppedHsm
  | loggedOut
deriving DecidableEq, Repr

/-- One cycle of `idle_logout`'s `while not glob.hsm_active` loop: check the
loop condition, sleep, skip when no key event was ever recorded, else compare
`ticks_diff(now, last_event_time)` against `idle_to * 1000`; on
`timeout and dt > timeout` invoke `logout_now()` and return.  The second
component records whether logout was invoked in this cycle. -/
def idle_logout_step (e : CycleEnv) : WatchStatus → WatchStatus × Bool
  | .running =>
    if e.hsm then (.stoppedHsm, false)
    else if e.lastEvent = 0 then (.running, false)
    else if (e.idleTo : Int) * 1000 ≠ 0 ∧
        ticks_diff e.now e.lastEvent > (e.idleTo : Int) * 1000 then
      (.loggedOut, true)
    else (.running, false)
  | .stoppedHsm => (.stoppedHsm, false)
  | .loggedOut => (.loggedOut, false)

/-- Watchdog status after `n` cycles against the environment trace `env`
(one `CycleEnv` snapshot per 5-second cycle); the task starts running. -/
def idle_logout_run (env : Nat → CycleEnv) : Nat → WatchStatus
  | 0 => .running
  | n + 1 => (idle_logout_step (env n) (idle_logout_run env n)).1

/-- Whether the watchdog invokes `logout_now()` during cycle `n`. -/
def idle_logout_fires (env : Nat → CycleEnv) (n : Nat) : Bool :=
  (idle_logout_step (env n) (idle_logout_run env n)).2

/-- Concrete watchdog environment: never suspended, a key event recorded at
tick 5, clock at tick 2000000, one-second idle timeout. -/
def idleEnvA : Nat → CycleEnv := fun _ => ⟨false, 5, 2000000, 1⟩

/-- Concrete watchdog environment: the privileged (HSM) mode is active during
cycle 0 only; from cycle 1 on every idle-logout condition is met. -/
def idleEnvB : Nat → CycleEnv := fun n => ⟨n == 0, 5, 2000000, 1⟩

/-! ## Abort/interrupt signaling (`abort_and_goto`, `abort_and_push`) -/

/-- System state the abort entry points act on: the singleton `the_ux` stack
and whether `numpad.abort_ux()` has signalled the wakeup. -/
structure UXState (α : Type u) where
  stack : List α
  awoken : Bool

/-- Primitive steps the abort entry points perform, in program order. -/
inductive UXOp (α : Type u)
  | resetStack (m : α)
  | pushStack (m : α)
  | abortUx

/-- Effect of one primitive step: `the_ux.reset(m)`, `the_ux.push(m)`, or
`numpad.abort_ux()`. -/
def UXOp.apply (s : UXState α) : UXOp α → UXState α
  | .resetStack m => { s with stack := UserInteraction.reset s.stack m }
  | .pushStack m => { s with stack := UserInteraction.push s.stack m }
  | .abortUx => { s with awoken := true }

/-- `abort_and_goto(m)`: `the_ux.reset(m)` then `numpad.abort_ux()`, as the
ordered list of primitive steps. -/
def abort_and_goto (m : α) : List (UXOp α) :=
  [.resetStack m, .abortUx]

/-- `abort_and_push(m)`: `the_ux.push(m)` then `numpad.abort_ux()`, as the
ordered list of primitive steps. -/
def abort_and_push (m : α) : List (UXOp α) :=
  [.pushStack m, .abortUx]

/-- Run a sequence of primitive steps in order. -/
def UXOp.exec (s : UXState α) (ops : List (UXOp α)) : UXState α :=
  ops.foldl UXOp.apply s

/-! ## Key-up wait loop (`ux_wait_keyup`) -/

/-- Python `sub in s` on strings: substring containment. -/
def pyStrIn (sub s : String) : Bool :=
  (List.range (s.toList.length + 1)).any
    (fun i => (s.toList.drop i).take sub.toList.length = sub.toList)

/-- The guard `if expected and (ch not in expected)` of `ux_wait_keyup`:
`expected` of `None` or `''` is falsy, so no filtering happens; otherwise the
event is skipped when it is not a substring of `expected`. -/
def keyupFilterOut (expected : Option String) (ch : String) : Bool :=
  match expected with
  | none => false
  | some e => !e.isEmpty && !pyStrIn ch e

/-- Python truthiness of the `armed` variable (`None` or a string). -/
def armedTruthy : Option String → Bool
  | none => false
  | some s => !s.isEmpty

/-- Result of running `ux_wait_keyup` against a finite prefix of the key-event
stream: it returned a code, raised `AbortInteraction`, or is still blocked
waiting for more events. -/
inductive KeyupOutcome
  | returned (code : String)
  | abortedWait
  | blocked
deriving DecidableEq, Repr

/-- `ux_wait_keyup(expected)` over the listed key events, carrying the `armed`
state (initially `None` in the source): raise on `numpad.ABORT_KEY`, skip
multipresses (`len(ch) > 1`), skip events filtered by `expected`, return
`armed` on a release (`ch == ''`) when armed, else arm with the event. -/
def ux_wait_keyup (abortKey : String) (expected : Option String)
    (armed : Option String) : List String → KeyupOutcome
  | [] => .blocked
  | ch :: rest =>
    if ch = abortKey then .abortedWait
    else if ch.length > 1 then ux_wait_keyup abortKey expected armed rest
    else if keyupFilterOut expected ch then ux_wait_keyup abortKey expected armed rest
    else if ch = "" ∧ armedTruthy armed then
      .returned (armed.getD "")
    else ux_wait_keyup abortKey expected (some ch) rest

/-! ## Fatal-error display (`show_fatal_error`) -/

/-- `show_fatal_error`: `lines = msg.split('\n')[-6:]`, handed to
`dis.show_yikes(lines)`.  Returns the lines handed over; `l[-6:]` keeps the
last six elements (`drop (length - 6)` with truncating subtraction). -/
def show_fatal_error (msg : String) : List String :=
  let ls := pySplit '\n' msg
  ls.drop (ls.length - 6)

/-! ## Theorems -/

/-- C4: `reset(x)` leaves the stack exactly `[x]`; `pop()` on a one-element
stack removes nothing and returns `True` ("was already at root"); `pop()` on a
stack of two or more elements removes the top element (and returns no
boolean). -/
theorem reset_pop_root_spec (s : List α) (x : α) :
    UserInteraction.reset s x = [x] ∧
    (∀ y : α, UserInteraction.pop [y] = ([y], some true)) ∧
    (2 ≤ s.length →
      (UserInteraction.pop s).2 = none ∧
      ∃ t, UserInteraction.top_of_stack s = some t ∧
        s = (UserInteraction.pop s).1 ++ [t]) := by
  refine ⟨rfl, fun y => by simp [UserInteraction.pop], fun h => ?_⟩
  have hne : s ≠ [] := by rintro rfl; simp at h
  have hpop : UserInteraction.pop s = (s.dropLast, none) := by
    unfold UserInteraction.pop
    rw [if_neg (by omega)]
  refine ⟨by rw [hpop], s.getLast hne, ?_, ?_⟩
  · simp [UserInteraction.top_of_stack, List.getLast?_eq_getLast _ hne]
  · rw [hpop]
    exact (List.dropLast_append_getLast hne).symm

/-- Witness for `reset_pop_root_spec` at the stack `[1, 2]` and screen `7`. -/
theorem reset_pop_root_spec_witness :
    UserInteraction.reset [1, 2] 7 = [7] ∧
    UserInteraction.pop ([3] : List Nat) = ([3], some true) ∧
    ((UserInteraction.pop ([1, 2] : List Nat)).2 = none ∧
      ∃ t, UserInteraction.top_of_stack [1, 2] = some t ∧
        [1, 2] = (UserInteraction.pop ([1, 2] : List Nat)).1 ++ [t]) := by
  have h := reset_pop_root_spec ([1, 2] : List Nat) 7
  exact ⟨h.1, h.2.1 3, h.2.2 (by decide)⟩

/-- C7: `UserInteraction.interact` invokes `interact()` on the top-of-stack
screen (the outcome depends only on that screen); an `AbortInteraction`
raised by it is swallowed, so the call returns normally to the driver loop,
and a normal completion also returns normally. -/
theorem interact_swallows_abort (s : List Screen) (scr : Screen)
    (h : UserInteraction.top_of_stack s = some scr) :
    UserInteraction.interact s = UserInteraction.interact [scr] ∧
    (scr.interact = .aborted → UserInteraction.interact s = .returned) ∧
    (scr.interact = .normal → UserInteraction.interact s = .returned) := by
  unfold UserInteraction.top_of_stack at h
  obtain ⟨o⟩ := scr
  cases o <;> simp_all [UserInteraction.interact]

/-- Witness for `interact_swallows_abort`: a singleton stack whose top raises
`AbortInteraction` still makes `interact` return normally. -/
theorem interact_swallows_abort_witness :
    UserInteraction.interact [⟨.aborted⟩] = .returned :=
  (interact_swallows_abort [⟨.aborted⟩] ⟨.aborted⟩ rfl).2.1 rfl

/-- C10: `show_fatal_error` splits the message on newlines and passes only
the last six lines to the display: a message of at most six lines is passed
in full, and for a longer message exactly the earlier lines are dropped. -/
theorem show_fatal_error_last_six (msg : String) :
    show_fatal_error msg =
      (pySplit '\n' msg).drop ((pySplit '\n' msg).length - 6) ∧
    ((pySplit '\n' msg).length ≤ 6 → show_fatal_error msg = pySplit '\n' msg) ∧
    (6 < (pySplit '\n' msg).length →
      (show_fatal_error msg).length = 6 ∧
      (pySplit '\n' msg).take ((pySplit '\n' msg).length - 6) ++
        show_fatal_error msg = pySplit '\n' msg) := by
  refine ⟨rfl, fun h => ?_, fun h => ⟨?_, ?_⟩⟩
  · show (pySplit '\n' msg).drop ((pySplit '\n' msg).length - 6)
      = pySplit '\n' msg
    rw [Nat.sub_eq_zero_of_le h, List.drop_zero]
  · show ((pySplit '\n' msg).drop ((pySplit '\n' msg).length - 6)).length = 6
    rw [List.length_drop]
    omega
  · show (pySplit '\n' msg).take ((pySplit '\n' msg).length - 6) ++
      (pySplit '\n' msg).drop ((pySplit '\n' msg).length - 6) = pySplit '\n' msg
    exact List.take_append_drop _ _

/-- Witness for `show_fatal_error_last_six` at an eight-line message. -/
theorem show_fatal_error_last_six_witness :
    (show_fatal_error "1\n2\n3\n4\n5\n6\n7\n8").length = 6 ∧
    (pySplit '\n' "1\n2\n3\n4\n5\n6\n7\n8").take
        ((pySplit '\n' "1\n2\n3\n4\n5\n6\n7\n8").length - 6) ++
      show_fatal_error "1\n2\n3\n4\n5\n6\n7\n8" =
      pySplit '\n' "1\n2\n3\n4\n5\n6\n7\n8" :=
  (show_fatal_error_last_six "1\n2\n3\n4\n5\n6\n7\n8").2.2 (by decide)

/-- C5: `abort_and_goto` first resets the stack to exactly the given screen
and `abort_and_push` first pushes it above the preserved stack; in both, after
the first (mutation) step the stack already holds the new state while the
wakeup is still unsignalled, and once the signal is issued a driver re-reading
the top of stack sees the new screen. -/
theorem abort_signal_order (s : UXState α) (m : α) (h : s.awoken = false) :
    (UXOp.exec s (List.take 1 (abort_and_goto m))).stack = [m] ∧
    (UXOp.exec s (List.take 1 (abort_and_goto m))).awoken = false ∧
    UXOp.exec s (abort_and_goto m) = ⟨[m], true⟩ ∧
    UserInteraction.top_of_stack (UXOp.exec s (abort_and_goto m)).stack = some m ∧
    (UXOp.exec s (List.take 1 (abort_and_push m))).stack = s.stack ++ [m] ∧
    (UXOp.exec s (List.take 1 (abort_and_push m))).awoken = false ∧
    UXOp.exec s (abort_and_push m) = ⟨s.stack ++ [m], true⟩ ∧
    UserInteraction.top_of_stack (UXOp.exec s (abort_and_push m)).stack
      = some m := by
  obtain ⟨st, aw⟩ := s
  cases h
  refine ⟨rfl, rfl, rfl, ?_, rfl, rfl, rfl, ?_⟩
  · rfl
  · exact List.getLast?_concat st

/-- Witness for `abort_signal_order` at the stack `[0]` and screen `5`. -/
theorem abort_signal_order_witness :
    UXOp.exec ⟨[0], false⟩ (abort_and_goto (5 : Nat)) = ⟨[5], true⟩ ∧
    UXOp.exec ⟨[0], false⟩ (abort_and_push (5 : Nat)) = ⟨[0, 5], true⟩ := by
  have h := abort_signal_order ⟨[0], false⟩ (5 : Nat) rfl
  exact ⟨h.2.2.1, h.2.2.2.2.2.2.1⟩

/-- C1 counterexample: on a 10-line buffer with `STORY_H = 5` (claimed range
`[0, 10 - 5] = [0, 5]`) and `top = 0`, the End key sets
`top = max(0, 10 - 5//2) = 8`, outside the claimed range. -/
theorem nav_end_range_cex :
    ux_show_story_nav 10 .endK 0 = 8 ∧
    ¬(0 ≤ ux_show_story_nav 10 .endK 0 ∧
        ux_show_story_nav 10 .endK 0 ≤ 10 - STORY_H) := by
  decide

/-- C1 amended: every navigation key keeps `top` within `[0, total_lines - 2]`
(the code's lower clamp is `len(lines) - 2`, not `len(lines) - STORY_H`),
whenever the buffer has at least two lines and `top` starts in that range. -/
theorem nav_range_invariant (l top : Int) (k : NavKey)
    (hl : 2 ≤ l) (h0 : 0 ≤ top) (h2 : top ≤ l - 2) :
    0 ≤ ux_show_story_nav l k top ∧ ux_show_story_nav l k top ≤ l - 2 := by
  have hdiv : STORY_H / 2 = (2 : Int) := by decide
  cases k <;> simp [ux_show_story_nav, STORY_H, hdiv] <;> omega

/-- Witness for `nav_range_invariant` at `l = 10`, `top = 3`, Page-down. -/
theorem nav_range_invariant_witness :
    0 ≤ ux_show_story_nav 10 .pageDown 3 ∧
    ux_show_story_nav 10 .pageDown 3 ≤ 10 - 2 :=
  nav_range_invariant 10 3 .pageDown (by decide) (by decide) (by decide)

/-- C2 (code bug): an untitled body that is entirely blank splits into blank
lines only, the trim loop empties the buffer and then faults (`IndexError`
from `lines[-1]`) before the `'EOT'` sentinel can be appended — while a body
with any nonblank content does get the sentinel appended after trimming. -/
theorem story_blank_body_faults :
    ux_show_story_lines (fun s => [s]) none "" = none ∧
    ux_show_story_lines (fun s => [s]) none "\n\n" = none ∧
    ux_show_story_lines (fun s => [s]) none "a\nb\n\n"
      = some ["a", "b", "EOT"] := by
  decide

/-- Once the watchdog has left the `running` status (loop exit on the HSM
flag, or return after logout), its status never changes again and logout is
never invoked again. -/
theorem watchdog_halted_stays (env : Nat → CycleEnv) (n : Nat)
    (h : idle_logout_run env n = .stoppedHsm ∨
      idle_logout_run env n = .loggedOut) :
    ∀ m, n ≤ m →
      idle_logout_run env m = idle_logout_run env n ∧
      idle_logout_fires env m = false := by
  intro m
  induction m with
  | zero =>
    intro hm
    have hn : n = 0 := by omega
    subst hn
    refine ⟨rfl, ?_⟩
    show (idle_logout_step (env 0) (idle_logout_run env 0)).2 = false
    rcases h with h | h <;> rw [h] <;> rfl
  | succ k ih =>
    intro hm
    rcases Nat.lt_or_ge k n with hk | hk
    · have hn : n = k + 1 := by omega
      subst hn
      refine ⟨rfl, ?_⟩
      show (idle_logout_step (env (k + 1)) (idle_logout_run env (k + 1))).2
        = false
      rcases h with h | h <;> rw [h] <;> rfl
    · obtain ⟨hrun, _⟩ := ih hk
      have hstep : idle_logout_run env (k + 1)
          = idle_logout_run env n := by
        show (idle_logout_step (env k) (idle_logout_run env k)).1
          = idle_logout_run env n
        rcases h with h | h <;> rw [hrun, h] <;> rfl
      refine ⟨hstep, ?_⟩
      show (idle_logout_step (env (k + 1)) (idle_logout_run env (k + 1))).2
        = false
      rcases h with h | h <;> rw [hstep, h] <;> rfl

/-- C3 counterexample: with the privileged mode active only during cycle 0
and every idle-logout condition met at cycle 1, the watchdog is already
stopped at cycle 1 — it did not merely skip the cycle 0 check, it never
resumes idle checking, and it never invokes logout. -/
theorem watchdog_hsm_skip_cex :
    idle_logout_run idleEnvB 1 = .stoppedHsm ∧
    (idleEnvB 1).hsm = false ∧
    (idleEnvB 1).lastEvent ≠ 0 ∧
    (idleEnvB 1).idleTo ≠ 0 ∧
    ticks_diff (idleEnvB 1).now (idleEnvB 1).lastEvent
      > ((idleEnvB 1).idleTo : Int) * 1000 ∧
    idle_logout_fires idleEnvB 1 = false := by
  refine ⟨rfl, rfl, by decide, by decide, by decide, rfl⟩

/-- C3 amended: when the watchdog observes the privileged mode flag active at
the top of a check cycle, its `while not hsm_active` loop exits and the task
terminates permanently — it does not resume idle checking once the mode ends,
and logout is never invoked from then on.  (The watchdog thus stops
permanently either on observing the privileged mode or after invoking
logout.) -/
theorem watchdog_hsm_stops_forever (env : Nat → CycleEnv) (n : Nat)
    (hrun : idle_logout_run env n = .running) (hhsm : (env n).hsm = true) :
    ∀ m, n < m →
      idle_logout_run env m = .stoppedHsm ∧
      idle_logout_fires env m = false := by
  have base : idle_logout_run env (n + 1) = .stoppedHsm := by
    show (idle_logout_step (env n) (idle_logout_run env n)).1 = .stoppedHsm
    rw [hrun]
    simp [idle_logout_step, hhsm]
  intro m hm
  have h := watchdog_halted_stays env (n + 1) (Or.inl base) m (by omega)
  rw [base] at h
  exact h

/-- Witness for `watchdog_hsm_stops_forever`: in `idleEnvB` the HSM flag is
active at cycle 0, and at cycle 2 the watchdog is stopped and silent. -/
theorem watchdog_hsm_stops_forever_witness :
    idle_logout_run idleEnvB 2 = .stoppedHsm ∧
    idle_logout_fires idleEnvB 2 = false :=
  watchdog_hsm_stops_forever idleEnvB 0 rfl rfl 2 (by decide)

/-- C6: whenever the watchdog is still running and a cycle observes the
device not suspended, a recorded key event, a nonzero configured timeout, and
elapsed ticks above the timeout, it invokes logout during that cycle and
never invokes it again in any later cycle; and any cycle whose configured
timeout is zero never invokes logout. -/
theorem idle_logout_once (env : Nat → CycleEnv) (n : Nat) :
    (idle_logout_run env n = .running → (env n).hsm = false →
      (env n).lastEvent ≠ 0 → (env n).idleTo ≠ 0 →
      ticks_diff (env n).now (env n).lastEvent > ((env n).idleTo : Int) * 1000 →
      idle_logout_fires env n = true ∧
        ∀ m, n < m → idle_logout_fires env m = false) ∧
    ((env n).idleTo = 0 → idle_logout_fires env n = false) := by
  constructor
  · intro hrun hhsm hle hto hdt
    have hto1000 : ((env n).idleTo : Int) * 1000 ≠ 0 :=
      mul_ne_zero (Int.natCast_ne_zero.mpr hto) (by norm_num)
    have hstep : idle_logout_step (env n) .running = (.loggedOut, true) := by
      unfold idle_logout_step
      rw [if_neg (by simp [hhsm]), if_neg hle, if_pos ⟨hto1000, hdt⟩]
    have hfire : idle_logout_fires env n = true := by
      show (idle_logout_step (env n) (idle_logout_run env n)).2 = true
      rw [hrun, hstep]
    refine ⟨hfire, fun m hm => ?_⟩
    have hnext : idle_logout_run env (n + 1) = .loggedOut := by
      show (idle_logout_step (env n) (idle_logout_run env n)).1 = .loggedOut
      rw [hrun, hstep]
    exact (watchdog_halted_stays env (n + 1) (Or.inr hnext) m (by omega)).2
  · intro h0
    show (idle_logout_step (env n) (idle_logout_run env n)).2 = false
    cases hr : idle_logout_run env n <;>
      simp [idle_logout_step, h0, apply_ite]

/-- Witness for `idle_logout_once` in `idleEnvA`: logout fires at cycle 0 and
not at cycle 1. -/
theorem idle_logout_once_witness :
    idle_logout_fires idleEnvA 0 = true ∧
    idle_logout_fires idleEnvA 1 = false := by
  have h := (idle_logout_once idleEnvA 0).1 rfl rfl (by decide) (by decide)
    (by decide)
  exact ⟨h.1, h.2 1 (by decide)⟩

/-- Iterated Page-down from `top = 0` advances by `STORY_H = 5` per press
until it saturates at the clamp `len(lines) - 2`. -/
theorem pageDownIter_eq_min (l : Int) (hl : 2 ≤ l) (n : Nat) :
    pageDownIter l n = min (l - 2) (5 * n) := by
  induction n with
  | zero =>
    show (0 : Int) = min (l - 2) (5 * (0 : Nat))
    push_cast
    omega
  | succ n ih =>
    show ux_show_story_nav l .pageDown (pageDownIter l n)
      = min (l - 2) (5 * ((n : Int) + 1))
    rw [ih]
    show min (l - 2) (min (l - 2) (5 * (n : Int)) + STORY_H)
      = min (l - 2) (5 * ((n : Int) + 1))
    rw [show STORY_H = (5 : Int) from rfl]
    omega

/-- C9: Page-down sets `top` to `min(len(lines)-2, top+STORY_H)` and Page-up
sets it to `max(0, top-STORY_H)`; for any text longer than one viewport
height, repeated Page-down from the start reaches `top = len(lines) - 2`,
where the visible window `[top, top+STORY_H)` still contains the sentinel
index `len(lines) - 1` and one further Page-down leaves `top` unchanged. -/
theorem page_down_reaches_sentinel (l : Int) (hl : STORY_H < l) :
    (∀ top, ux_show_story_nav l .pageDown top = min (l - 2) (top + STORY_H) ∧
      ux_show_story_nav l .pageUp top = max 0 (top - STORY_H)) ∧
    ∃ n : Nat, pageDownIter l n = l - 2 ∧
      ux_show_story_nav l .pageDown (l - 2) = l - 2 ∧
      (l - 2 ≤ l - 1 ∧ l - 1 < (l - 2) + STORY_H) := by
  rw [show STORY_H = (5 : Int) from rfl] at hl
  have hl2 : 2 ≤ l := by omega
  refine ⟨fun top => ⟨rfl, rfl⟩, l.toNat, ?_, ?_, ?_⟩
  · rw [pageDownIter_eq_min l hl2, Int.toNat_of_nonneg (by omega)]
    omega
  · show min (l - 2) (l - 2 + STORY_H) = l - 2
    rw [show STORY_H = (5 : Int) from rfl]
    omega
  · rw [show STORY_H = (5 : Int) from rfl]
    omega

/-- Witness for `page_down_reaches_sentinel` at a 12-line buffer. -/
theorem page_down_reaches_sentinel_witness :
    ux_show_story_nav 12 .pageDown 3 = min (12 - 2) (3 + STORY_H) ∧
    ux_show_story_nav 12 .pageDown (12 - 2) = 12 - 2 := by
  have h := page_down_reaches_sentinel 12 (by decide)
  obtain ⟨n, _, h2, _⟩ := h.2
  exact ⟨(h.1 3).1, h2⟩

/-- A `returned` outcome of `ux_wait_keyup` means: either the initially armed
code is returned after some release event, or some accepted single-key down
event in the stream is followed, strictly later, by a release event and that
code is returned. -/
theorem ux_wait_keyup_returned_aux (abortKey : String)
    (expected : Option String) (evs : List String) :
    ∀ (armed : Option String) (k : String),
    ux_wait_keyup abortKey expected armed evs = .returned k →
    (armed = some k ∧ k ≠ "" ∧ ∃ j, evs.get? j = some "") ∨
    (k ≠ "" ∧ k ≠ abortKey ∧ k.length ≤ 1 ∧
      keyupFilterOut expected k = false ∧
      ∃ i j, i < j ∧ evs.get? i = some k ∧ evs.get? j = some "") := by
  induction evs with
  | nil =>
    intro armed k h
    simp [ux_wait_keyup] at h
  | cons ch rest ih =>
    intro armed k h
    by_cases h1 : ch = abortKey
    · rw [ux_wait_keyup, if_pos h1] at h
      simp at h
    · by_cases h2 : ch.length > 1
      · rw [ux_wait_keyup, if_neg h1, if_pos h2] at h
        rcases ih armed k h with ⟨ha, hk, j, hj⟩ |
          ⟨hk, hka, hkl, hkf, i, j, hij, hi, hj⟩
        · exact .inl ⟨ha, hk, j + 1, by simpa using hj⟩
        · exact .inr ⟨hk, hka, hkl, hkf, i + 1, j + 1, by omega,
            by simpa using hi, by simpa using hj⟩
      · by_cases h3 : keyupFilterOut expected ch = true
        · rw [ux_wait_keyup, if_neg h1, if_neg h2, if_pos h3] at h
          rcases ih armed k h with ⟨ha, hk, j, hj⟩ |
            ⟨hk, hka, hkl, hkf, i, j, hij, hi, hj⟩
          · exact .inl ⟨ha, hk, j + 1, by simpa using hj⟩
          · exact .inr ⟨hk, hka, hkl, hkf, i + 1, j + 1, by omega,
              by simpa using hi, by simpa using hj⟩
        · by_cases h4 : ch = "" ∧ armedTruthy armed = true
          · rw [ux_wait_keyup, if_neg h1, if_neg h2, if_neg h3, if_pos h4] at h
            obtain ⟨hc, ht⟩ := h4
            cases armed with
            | none => simp [armedTruthy] at ht
            | some a =>
              have hak : a = k := by simpa using h
              subst hak
              refine .inl ⟨rfl, ?_, 0, by simp [hc]⟩
              intro hk
              rw [hk] at ht
              exact absurd ht (by decide)
          · rw [ux_wait_keyup, if_neg h1, if_neg h2, if_neg h3, if_neg h4] at h
            rcases ih (some ch) k h with ⟨ha, hk, j, hj⟩ |
              ⟨hk, hka, hkl, hkf, i, j, hij, hi, hj⟩
            · have hck : ch = k := by simpa using ha
              subst hck
              exact .inr ⟨hk, h1, by omega, by simpa using h3, 0, j + 1,
                by omega, by simp, by simpa using hj⟩
            · exact .inr ⟨hk, hka, hkl, hkf, i + 1, j + 1, by omega,
                by simpa using hi, by simpa using hj⟩

/-- C8: `ux_wait_keyup` raises the Aborted condition as soon as the reserved
abort key code arrives; a multipress event or an event outside the accepted
set is ignored (the wait continues exactly as without it); and a returned
code is a nonempty accepted single-key code whose down event is followed,
strictly later in the stream, by a release (empty code) — the wait returns on
key-up, never on key-down. -/
theorem ux_wait_keyup_spec (abortKey : String) (expected : Option String)
    (evs rest : List String) (ch k : String) :
    (ch = abortKey →
      ux_wait_keyup abortKey expected none (ch :: rest) = .abortedWait) ∧
    (ch ≠ abortKey → 1 < ch.length →
      ∀ armed, ux_wait_keyup abortKey expected armed (ch :: rest)
        = ux_wait_keyup abortKey expected armed rest) ∧
    (ch ≠ abortKey → keyupFilterOut expected ch = true →
      ∀ armed, ux_wait_keyup abortKey expected armed (ch :: rest)
        = ux_wait_keyup abortKey expected armed rest) ∧
    (ux_wait_keyup abortKey expected none evs = .returned k →
      k ≠ "" ∧ k ≠ abortKey ∧ k.length ≤ 1 ∧
      keyupFilterOut expected k = false ∧
      ∃ i j, i < j ∧ evs.get? i = some k ∧ evs.get? j = some "") := by
  refine ⟨fun h1 => ?_, fun h1 h2 armed => ?_, fun h1 h3 armed => ?_,
    fun h => ?_⟩
  · rw [ux_wait_keyup, if_pos h1]
  · rw [ux_wait_keyup, if_neg h1, if_pos h2]
  · by_cases h2 : ch.length > 1
    · rw [ux_wait_keyup, if_neg h1, if_pos h2]
    · rw [ux_wait_keyup, if_neg h1, if_neg h2, if_pos h3]
  · rcases ux_wait_keyup_returned_aux abortKey expected evs none k h with
      ⟨ha, _⟩ | hr
    · exact absurd ha (by simp)
    · exact hr

/-- Witness for `ux_wait_keyup_spec`: abort key `"z"`, accepted set `"xy"`;
the abort key aborts, a multipress is ignored, and the accepted code `"x"`
(returned after its release in `["x", ""]`) passes the accepted-set filter. -/
theorem ux_wait_keyup_spec_witness :
    ux_wait_keyup "z" (some "xy") none ["z", "x"] = .abortedWait ∧
    ux_wait_keyup "z" (some "xy") none ["ab", "x", ""]
      = ux_wait_keyup "z" (some "xy") none ["x", ""] ∧
    keyupFilterOut (some "xy") "x" = false := by
  have h := ux_wait_keyup_spec "z" (some "xy") ["x", ""] ["x"] "z" "x"
  have h2 := ux_wait_keyup_spec "z" (some "xy") [] ["x", ""] "ab" "x"
  exact ⟨h.1 rfl, h2.2.1 (by decide) (by decide) none,
    (h.2.2.2 (by decide)).2.2.2.1⟩
